import Mathlib

/-!
Verification of the validation engine of the Excel validation dashboard
(`src/app.py`).  The engine validates a tabular record set against field,
range and cross-field rules, writing error messages into offending cells
and collecting a highlight key set plus summary lines.

Shallow embedding conventions:
* A cell value (`Value`) is either the Python `None` sentinel, a float NaN
  (what `pandas.read_excel(dtype=str)` yields for blank cells), or a string.
* Python's `str.strip`, `int(...)`, `float(...)` string parsing and
  `pandas.to_datetime` are modelled by executable Lean functions
  (`pyStrip`, `pyIntParse`, `pyFloatParse`, `pdToDatetimeQ`).  The float
  model covers the finite decimal/exponent forms of Python's float
  grammar; the date model covers the numeric three-token day-first
  formats of the pandas parser (with the pandas timestamp range bound).
* Operations that can raise in Python are modelled in `Except`; the
  engine's `try/except` blocks become the corresponding handlers, so the
  absence of escaping exceptions is a provable statement.
-/

/-- A raw cell value as the engine sees it. -/
inductive Value where
  | vnone : Value
  | vnan : Value
  | vstr : String → Value
deriving DecidableEq

/-- Python `str(value)` on the three cell shapes. -/
def pyStr : Value → String
  | .vnone => "None"
  | .vnan => "nan"
  | .vstr s => s

/-- ASCII whitespace recognised by the strip model. -/
def isSpaceC (c : Char) : Bool :=
  c.toNat = 32 || c.toNat = 9 || c.toNat = 10 || c.toNat = 13

/-- ASCII decimal digit test used by the numeric parse models. -/
def isDigitC (c : Char) : Bool :=
  48 ≤ c.toNat && c.toNat ≤ 57

/-- Strip leading and trailing whitespace from a character list. -/
def stripList (cs : List Char) : List Char :=
  ((cs.dropWhile isSpaceC).reverse.dropWhile isSpaceC).reverse

/-- Models Python `str.strip()`. -/
def pyStrip (s : String) : String :=
  String.mk (stripList s.toList)

/-- ASCII lower-casing of one character. -/
def lowerChar (c : Char) : Char :=
  if 65 ≤ c.toNat && c.toNat ≤ 90 then Char.ofNat (c.toNat + 32) else c

/-- Models Python `str.lower()` on ASCII text. -/
def pyLower (s : String) : String :=
  String.mk (s.toList.map lowerChar)

/-- Models Python `str.endswith(suffix)`. -/
def sEndsWith (s suf : String) : Bool :=
  List.isSuffixOf suf.toList s.toList

/-- Models Python `s[:-n]` for `0 < n ≤ len(s)`. -/
def sDropRight (s : String) (n : Nat) : String :=
  String.mk (s.toList.take (s.toList.length - n))

/-- Models Python `c in s` for a single character. -/
def sContains (s : String) (c : Char) : Bool :=
  s.toList.contains c

/-- The decimal digit character for a value below ten. -/
def digitChar (n : Nat) : Char :=
  if n = 0 then '0' else if n = 1 then '1' else if n = 2 then '2'
  else if n = 3 then '3' else if n = 4 then '4' else if n = 5 then '5'
  else if n = 6 then '6' else if n = 7 then '7' else if n = 8 then '8'
  else '9'

/-- Numeric value of a digit string (leading zeros allowed). -/
def digitsToNat (cs : List Char) : Nat :=
  cs.foldl (fun a c => a * 10 + (c.toNat - 48)) 0

/-- Fuelled decimal rendering of a natural number. -/
def natDigitsAux : Nat → Nat → List Char
  | 0, _ => []
  | f + 1, n =>
    if n < 10 then [digitChar n]
    else natDigitsAux f (n / 10) ++ [digitChar (n % 10)]

/-- Decimal digit list of a natural number. -/
def natDigits (n : Nat) : List Char := natDigitsAux (n + 1) n

/-- Decimal rendering of a natural number (as interpolated by f-strings). -/
def natStr (n : Nat) : String := String.mk (natDigits n)

/-- Two-digit zero-padded rendering, as in `strftime` day/month fields. -/
def pad2 (n : Nat) : List Char :=
  if n < 10 then '0' :: [digitChar n] else natDigits n

/-- `is_empty` from the source: `None`, NaN and blank/whitespace-only
strings are empty; `"n/a"` (case-insensitive) and `"0"` are explicitly
not empty; any other non-blank string is not empty. -/
def is_empty (v : Value) : Bool :=
  match v with
  | .vnone => true
  | .vnan => true
  | .vstr s0 =>
    let s := pyStrip s0
    if s = "" then true
    else if pyLower s = "n/a" then false
    else if s = "0" then false
    else false

/-- Models Python `int(s)` on strings: optional sign then decimal digits,
surrounding whitespace ignored; anything else fails. -/
def pyIntParse (s : String) : Option Int :=
  match (pyStrip s).toList with
  | '+' :: ds =>
    if ds.isEmpty then none
    else if ds.all isDigitC then some (digitsToNat ds) else none
  | '-' :: ds =>
    if ds.isEmpty then none
    else if ds.all isDigitC then some (-(digitsToNat ds : Int)) else none
  | ds =>
    if ds.isEmpty then none
    else if ds.all isDigitC then some (digitsToNat ds) else none

/-- The throwing form of `int(s)`: a failed parse raises `ValueError`. -/
def pyIntE (s : String) : Except Unit Int :=
  match pyIntParse s with
  | some n => Except.ok n
  | none => Except.error ()

/-- `to_int` from the source with the `try` body in `Except`: empty fails;
otherwise strip, drop a trailing `".0"`, reject a remaining decimal
point, and attempt the integer parse inside `try`. -/
def to_intE (v : Value) : Except Unit (Bool × Option Int) :=
  if is_empty v then Except.ok (false, none)
  else
    let s0 := pyStrip (pyStr v)
    let s1 := if sEndsWith (pyLower s0) ".0" then sDropRight s0 2 else s0
    if sContains s1 '.' then Except.ok (false, none)
    else
      match pyIntE s1 with
      | Except.ok n => Except.ok (true, some n)
      | Except.error _ => Except.ok (false, none)

/-- `to_int` as the rules use it: the `except Exception` handler maps any
escaped error to `(False, None)`. -/
def to_int (v : Value) : Bool × Option Int :=
  match to_intE v with
  | Except.ok r => r
  | Except.error _ => (false, none)

/-- Optional leading sign of a numeric literal; `true` means negative. -/
def parseSignL : List Char → Bool × List Char
  | '+' :: r => (false, r)
  | '-' :: r => (true, r)
  | r => (false, r)

/-- Split at the first character matching `p`; the remainder (when the
separator occurs) is returned separately. -/
def splitAtFirst (p : Char → Bool) : List Char → List Char × Option (List Char)
  | [] => ([], none)
  | c :: r =>
    if p c then ([], some r)
    else
      let q := splitAtFirst p r
      (c :: q.1, q.2)

/-- Exact decimal number `num * 10 ^ exp`, the model of a parsed Python
float.  The engine only ever truncates such a value to an integer or
tests its sign, and on those operations the exact decimal and the
binary float agree. -/
structure DecNum where
  num : Int
  exp : Int
deriving DecidableEq

/-- Models Python `float(s)` on the finite decimal forms:
`[+-]? (digits [. digits?] | . digits) ([eE] [+-]? digits)?` with
surrounding whitespace ignored. -/
def pyFloatParse (s : String) : Option DecNum :=
  let cs := (pyStrip s).toList
  let sg := parseSignL cs
  let me := splitAtFirst (fun c => c = 'e' || c = 'E') sg.2
  let ipfp := splitAtFirst (fun c => c = '.') me.1
  let ip := ipfp.1
  let fp := ipfp.2.getD []
  if ip.all isDigitC && fp.all isDigitC && (!ip.isEmpty || !fp.isEmpty) then
    let mag : Int := (digitsToNat (ip ++ fp) : Int)
    let num : Int := if sg.1 then -mag else mag
    match me.2 with
    | none => some ⟨num, -(fp.length : Int)⟩
    | some ecs =>
      let esg := parseSignL ecs
      if !esg.2.isEmpty && esg.2.all isDigitC then
        let e : Int := if esg.1 then -(digitsToNat esg.2 : Int) else (digitsToNat esg.2 : Int)
        some ⟨num, e - (fp.length : Int)⟩
      else none
  else none

/-- The throwing form of `float(s)`. -/
def pyFloatE (s : String) : Except Unit DecNum :=
  match pyFloatParse s with
  | some q => Except.ok q
  | none => Except.error ()

/-- `to_float` from the source with the `try` body in `Except`. -/
def to_floatE (v : Value) : Except Unit (Bool × Option DecNum) :=
  if is_empty v then Except.ok (false, none)
  else
    match pyFloatE (pyStrip (pyStr v)) with
    | Except.ok q => Except.ok (true, some q)
    | Except.error _ => Except.ok (false, none)

/-- `to_float` as the rules use it. -/
def to_float (v : Value) : Bool × Option DecNum :=
  match to_floatE v with
  | Except.ok r => r
  | Except.error _ => (false, none)

/-- Truncation toward zero, as Python `int(float)` does. -/
def decTrunc (d : DecNum) : Int :=
  if 0 ≤ d.exp then d.num * (10 : Int) ^ d.exp.toNat
  else Int.tdiv d.num ((10 : Int) ^ (-d.exp).toNat)

/-- Sign test `value < 0` on a parsed float. -/
def decIsNeg (d : DecNum) : Bool := d.num < 0

/-- A parsed calendar date. -/
structure PDate where
  day : Nat
  month : Nat
  year : Nat
deriving DecidableEq

/-- Gregorian leap-year rule. -/
def isLeap (y : Nat) : Bool :=
  (y % 4 = 0 && y % 100 ≠ 0) || y % 400 = 0

/-- Days in a month of a given year. -/
def daysInMonth (y m : Nat) : Nat :=
  if m = 2 then (if isLeap y then 29 else 28)
  else if m = 4 || m = 6 || m = 9 || m = 11 then 30
  else 31

/-- Calendar validity of a day/month/year triple. -/
def validDMY (day mon yr : Nat) : Bool :=
  1 ≤ mon && mon ≤ 12 && 1 ≤ day && day ≤ daysInMonth yr mon

/-- Lexicographic order on (year, month, day). -/
def dateLE (y1 m1 d1 y2 m2 d2 : Nat) : Bool :=
  y1 < y2 || (y1 = y2 && (m1 < m2 || (m1 = m2 && d1 ≤ d2)))

/-- The pandas timestamp range restricted to whole days. -/
def inTsBounds (day mon yr : Nat) : Bool :=
  dateLE 1677 9 22 yr mon day && dateLE yr mon day 2262 4 11

/-- Build a date after the validity and range checks the pandas parser
performs. -/
def mkDateQ (day mon yr : Nat) : Option PDate :=
  if validDMY day mon yr && inTsBounds day mon yr then some ⟨day, mon, yr⟩
  else none

/-- Date-token separator characters. -/
def isSepC (c : Char) : Bool :=
  c = '-' || c = '/' || c = '.' || c = ' '

/-- Split a character list on separator characters. -/
def splitSeps : List Char → List (List Char)
  | [] => [[]]
  | c :: rest =>
    if isSepC c then [] :: splitSeps rest
    else
      match splitSeps rest with
      | [] => [[c]]
      | t :: ts => (c :: t) :: ts

/-- Token made of decimal digits only, nonempty. -/
def validToken (cs : List Char) : Bool :=
  !cs.isEmpty && cs.all isDigitC

/-- Models `pandas.to_datetime(s, dayfirst=True)` on the numeric
three-token formats: a four-digit leading token is read year-month-day;
otherwise day-month-year with the day-first swap the underlying parser
applies when the middle token cannot be a month.  The calendar and the
pandas timestamp range are checked. -/
def pdToDatetimeQ (s : String) : Option PDate :=
  match splitSeps s.toList with
  | [a, b, c] =>
    if validToken a && validToken b && validToken c then
      if a.length = 4 then mkDateQ (digitsToNat c) (digitsToNat b) (digitsToNat a)
      else if c.length = 4 then
        let na := digitsToNat a
        let nb := digitsToNat b
        if 12 < nb && na ≤ 12 then mkDateQ nb na (digitsToNat c)
        else mkDateQ na nb (digitsToNat c)
      else none
    else none
  | _ => none

/-- The throwing form of the pandas parse (`errors="raise"`). -/
def pdToDatetimeE (s : String) : Except Unit PDate :=
  match pdToDatetimeQ s with
  | some d => Except.ok d
  | none => Except.error ()

/-- `dt.strftime("%d-%m-%Y")`. -/
def strftimeDMY (d : PDate) : String :=
  String.mk (pad2 d.day ++ '-' :: (pad2 d.month ++ '-' :: natDigits d.year))

/-- `parse_and_format_date` from the source with the `try` body in
`Except`: empty fails; otherwise strip, day-first parse, and reformat as
`dd-mm-YYYY`. -/
def parse_and_format_dateE (v : Value) : Except Unit (Bool × Option String) :=
  if is_empty v then Except.ok (false, none)
  else
    match pdToDatetimeE (pyStrip (pyStr v)) with
    | Except.ok d => Except.ok (true, some (strftimeDMY d))
    | Except.error _ => Except.ok (false, none)

/-- `parse_and_format_date` as the rules use it. -/
def parse_and_format_date (v : Value) : Bool × Option String :=
  match parse_and_format_dateE v with
  | Except.ok r => r
  | Except.error _ => (false, none)

/-- `append_message` from the source: a cell that strips to nothing or to
the literal `"nan"` is replaced by the new message; otherwise the message
is appended with the `" | "` separator. -/
def append_message (existing : Value) (newMsg : String) : String :=
  let s := pyStrip (pyStr existing)
  if s = "" then newMsg
  else if pyLower s = "nan" then newMsg
  else s ++ " | " ++ newMsg

/-! ## Table model

A row maps column names to cell values (the association list keeps the
column order of the sheet); a table is its column list plus its rows in
order.  Row position is the pandas index produced by `read_excel`
(0, 1, 2, ...), which is also the key used in the highlight set.  All
fills in the flagging code are the single `FILL_YELLOW`, so the
highlight dictionary is modelled by its key list. -/

/-- The expected column set. -/
def EXPECTED_COLUMNS : List String :=
  ["macroid", "asset_type", "asset_name", "final_value", "asset_usage_id",
   "value_base", "inspection_date", "production_capacity",
   "production_capacity_measuring_unit", "owner_name", "product_type",
   "market_approach", "market_approach_value", "cost_approach",
   "cost_approach_value", "country", "region", "city"]

/-- The mandatory fields (`cost_approach`, `cost_approach_value` excepted). -/
def MANDATORY_FIELDS : List String :=
  ["asset_type", "asset_name", "asset_usage_id", "value_base",
   "inspection_date", "final_value", "production_capacity",
   "production_capacity_measuring_unit", "owner_name", "product_type",
   "market_approach", "market_approach_value", "country", "region", "city"]

def ASSET_USAGE_MIN : Int := 38
def ASSET_USAGE_MAX : Int := 56
def VALUE_BASE_MIN : Int := 1
def VALUE_BASE_MAX : Int := 9
def MARKET_APPROACH_ALLOWED : List Int := [0, 1, 2]

/-- A record row: column name to raw cell value. -/
abbrev Row : Type := List (String × Value)

/-- `df.at[idx, c]` read on a row (the rules only read guarded-present
columns, so the default for an absent column is never reached). -/
def Row.get : Row → String → Value
  | [], _ => Value.vnone
  | p :: rest, c => if p.1 = c then p.2 else Row.get rest c

/-- `df.at[idx, c] = v` on a row: update the column in place (pandas
`.at` would enlarge on a missing label; all writes are to guarded
columns). -/
def Row.set : Row → String → Value → Row
  | [], c, v => [(c, v)]
  | p :: rest, c, v => if p.1 = c then (c, v) :: rest else p :: Row.set rest c v

/-- A record table: fixed column list plus rows in order. -/
structure Table where
  cols : List String
  rows : List Row
deriving DecidableEq

/-- Cell read by row position and column name. -/
def getCell (t : Table) (idx : Nat) (c : String) : Value :=
  (t.rows.getD idx []).get c

/-- Outcome of one rule evaluation on one row of a column pass:
leave the cell, silently rewrite it (the date auto-fix), or flag it and
append a message. -/
inductive Act where
  | keep : Act
  | fix : Value → Act
  | flag : String → Act
deriving DecidableEq

/-- Apply an `Act` to the pass column of a row. -/
def applyAct (c : String) (r : Row) : Act → Row
  | .keep => r
  | .fix v => Row.set r c v
  | .flag m => Row.set r c (Value.vstr (append_message (r.get c) m))

/-- Result of a column pass: updated rows, flagged highlight keys, flag
count and silent-fix count. -/
structure PassOut where
  rows : List Row
  keys : List (Nat × String)
  nflag : Nat
  nfix : Nat
deriving DecidableEq

/-- One `for idx, val in df[c].items()` loop from the source: each row is
inspected and at most its `c` cell rewritten; `s` is the pandas index of
the first row. -/
def colPassRows (c : String) (d : Row → Act) : List Row → Nat → PassOut
  | [], _ => ⟨[], [], 0, 0⟩
  | r :: rest, s =>
    let o := colPassRows c d rest (s + 1)
    match d r with
    | .keep => ⟨r :: o.rows, o.keys, o.nflag, o.nfix⟩
    | .fix v => ⟨Row.set r c v :: o.rows, o.keys, o.nflag, o.nfix + 1⟩
    | .flag m =>
      ⟨Row.set r c (Value.vstr (append_message (r.get c) m)) :: o.rows,
       (s, c) :: o.keys, o.nflag + 1, o.nfix⟩

/-- The approach-code derivation inside `validate_mandatory_only`
(lines 184-188): `0 if is_empty(raw) else int(float(str(raw).strip()))`
with any exception giving `None`. -/
def approachMandatory (raw : Value) : Option Int :=
  if is_empty raw then some 0
  else
    match pyFloatParse (pyStrip (pyStr raw)) with
    | some q => some (decTrunc q)
    | none => none

/-- The approach-code derivation inside `validate_all`'s
market_approach_value block (lines 297-303): start from 0, and when the
raw value is non-empty try `int(float(str(raw).strip()))`, any exception
giving `None`. -/
def approachCross (raw : Value) : Option Int :=
  if is_empty raw then some 0
  else
    match pyFloatParse (pyStrip (pyStr raw)) with
    | some q => some (decTrunc q)
    | none => none

/-- Mandatory-presence rule for one column (inner loop of
`validate_mandatory_only`): empty cells are flagged, except
`market_approach` always and `market_approach_value` when the paired
approach code is 0 or underivable. -/
def mandDecide (cols : List String) (col : String) (r : Row) : Act :=
  let val := Row.get r col
  if is_empty val then
    if col = "market_approach" then Act.keep
    else if col = "market_approach_value" then
      let raw := if "market_approach" ∈ cols then Row.get r "market_approach" else Value.vstr ""
      match approachMandatory raw with
      | some a => if a = 0 then Act.keep else Act.flag "This mandatory field is empty"
      | none => Act.keep
    else Act.flag "This mandatory field is empty"
  else Act.keep

/-- Final-value rule (inner loop of `validate_final_value_only`). -/
def finalDecide (r : Row) : Act :=
  let val := Row.get r "final_value"
  if is_empty val then Act.flag "final_value is mandatory and cannot be empty"
  else if (to_int val).1 then Act.keep
  else Act.flag "Final value must be a non-decimal integer"

/-- Date rule (inner loop of `validate_dates_only`): empty and
unparseable cells are flagged; parseable cells are silently rewritten to
the reformatted date. -/
def dateDecide (r : Row) : Act :=
  let val := Row.get r "inspection_date"
  if is_empty val then Act.flag "Date must be in dd-mm-YYYY format"
  else
    match parse_and_format_date val with
    | (true, some s) =>
      if s = "" then Act.flag "Date must be in dd-mm-YYYY format"
      else Act.fix (Value.vstr s)
    | _ => Act.flag "Date must be in dd-mm-YYYY format"

/-- Decimal rendering of a (non-negative) rule bound. -/
def intStr (i : Int) : String :=
  if i < 0 then "-" ++ natStr i.natAbs else natStr i.toNat

/-- The f-string message of the asset_usage_id range rule. -/
def usageMsg : String :=
  "asset_usage_id must be in [" ++ intStr ASSET_USAGE_MIN ++ "-" ++ intStr ASSET_USAGE_MAX ++ "]"

/-- The f-string message of the value_base range rule. -/
def valueBaseMsg : String :=
  "value_base must be in [" ++ intStr VALUE_BASE_MIN ++ "-" ++ intStr VALUE_BASE_MAX ++ "]"

/-- asset_usage_id range rule (validate_all, lines 260-268): non-empty
cells must parse with `to_int` into the inclusive range. -/
def usageDecide (r : Row) : Act :=
  let val := Row.get r "asset_usage_id"
  if is_empty val then Act.keep
  else
    let p := to_int val
    if !p.1 then Act.flag usageMsg
    else
      match p.2 with
      | none => Act.flag usageMsg
      | some n =>
        if ASSET_USAGE_MIN ≤ n && n ≤ ASSET_USAGE_MAX then Act.keep
        else Act.flag usageMsg

/-- value_base range rule (validate_all, lines 271-279). -/
def valueBaseDecide (r : Row) : Act :=
  let val := Row.get r "value_base"
  if is_empty val then Act.keep
  else
    let p := to_int val
    if !p.1 then Act.flag valueBaseMsg
    else
      match p.2 with
      | none => Act.flag valueBaseMsg
      | some n =>
        if VALUE_BASE_MIN ≤ n && n ≤ VALUE_BASE_MAX then Act.keep
        else Act.flag valueBaseMsg

/-- market_approach enum rule (validate_all, lines 282-291): empty is
treated as 0 and skipped; otherwise the float parse truncated to an
integer must lie in the allowed set. -/
def marketDecide (r : Row) : Act :=
  let val := Row.get r "market_approach"
  if is_empty val then Act.keep
  else
    let p := to_float val
    if !p.1 then Act.flag "market_approach must be 0, 1, or 2"
    else
      match p.2 with
      | none => Act.flag "market_approach must be 0, 1, or 2"
      | some q =>
        if decTrunc q ∈ MARKET_APPROACH_ALLOWED then Act.keep
        else Act.flag "market_approach must be 0, 1, or 2"

/-- Cross-field market_approach_value rule (validate_all, lines
294-309): when the derived approach code is 1 or 2 the value must parse
as a float. -/
def mavDecide (cols : List String) (r : Row) : Act :=
  let raw := if "market_approach" ∈ cols then Row.get r "market_approach" else Value.vstr ""
  match approachCross raw with
  | some a =>
    if a = 1 || a = 2 then
      let p := to_float (Row.get r "market_approach_value")
      if !p.1 then Act.flag "Must be a number when approach is 1 or 2"
      else
        match p.2 with
        | none => Act.flag "Must be a number when approach is 1 or 2"
        | some _ => Act.keep
    else Act.keep
  | none => Act.keep

/-- production_capacity rule (validate_all, lines 312-320): a non-empty
cell must parse as a non-negative number. -/
def productionDecide (r : Row) : Act :=
  let val := Row.get r "production_capacity"
  if is_empty val then Act.keep
  else
    let p := to_float val
    if !p.1 then Act.flag "Must be a non-negative number"
    else
      match p.2 with
      | none => Act.flag "Must be a non-negative number"
      | some q =>
        if decIsNeg q then Act.flag "Must be a non-negative number"
        else Act.keep

/-- `validate_final_value_only` (lines 137-163): flag empty or
non-integer final_value cells; the summary count line is emitted whether
or not the column is present. -/
def validate_final_value_only (t : Table) : Table × List (Nat × String) × List String :=
  if "final_value" ∈ t.cols then
    let o := colPassRows "final_value" finalDecide t.rows 0
    (⟨t.cols, o.rows⟩, o.keys, ["Final Value issues: " ++ natStr o.nflag])
  else (t, [], ["Final Value issues: " ++ natStr 0])

/-- The outer loop of `validate_mandatory_only` over the mandatory
columns; absent columns are skipped. -/
def mandLoop (cols : List String) (fields : List String) (rows : List Row) :
    List Row × List (Nat × String) × Nat :=
  match fields with
  | [] => (rows, [], 0)
  | col :: rest =>
    if col ∈ cols then
      let o := colPassRows col (mandDecide cols col) rows 0
      let r := mandLoop cols rest o.rows
      (r.1, o.keys ++ r.2.1, o.nflag + r.2.2)
    else mandLoop cols rest rows

/-- `validate_mandatory_only` (lines 166-196). -/
def validate_mandatory_only (t : Table) : Table × List (Nat × String) × List String :=
  let r := mandLoop t.cols MANDATORY_FIELDS t.rows
  (⟨t.cols, r.1⟩, r.2.1, ["Missing mandatory values: " ++ natStr r.2.2])

/-- The literal summary line emitted when the date column is absent. -/
def missingDateLine : String :=
  "Column " ++ String.mk [Char.ofNat 39] ++ "inspection_date" ++ String.mk [Char.ofNat 39] ++ " is missing"

/-- `validate_dates_only` (lines 199-230): flag empty/unparseable dates,
silently rewrite parseable ones; absent column yields a missing-column
line; an auto-format count line appears only when the count is
nonzero. -/
def validate_dates_only (t : Table) : Table × List (Nat × String) × List String :=
  if "inspection_date" ∈ t.cols then
    let o := colPassRows "inspection_date" dateDecide t.rows 0
    (⟨t.cols, o.rows⟩, o.keys,
     ["Invalid dates: " ++ natStr o.nflag] ++
       (if o.nfix = 0 then [] else ["Dates auto-formatted: " ++ natStr o.nfix]))
  else (t, [], [missingDateLine, "Invalid dates: " ++ natStr 0])

/-- The additional numeric/range checks of `validate_all` (lines
258-322), run in source order on the evolving table. -/
def validate_all_extra (t : Table) : Table × List (Nat × String) × Nat :=
  let p4 := if "asset_usage_id" ∈ t.cols then colPassRows "asset_usage_id" usageDecide t.rows 0
            else ⟨t.rows, [], 0, 0⟩
  let p5 := if "value_base" ∈ t.cols then colPassRows "value_base" valueBaseDecide p4.rows 0
            else ⟨p4.rows, [], 0, 0⟩
  let p6 := if "market_approach" ∈ t.cols then colPassRows "market_approach" marketDecide p5.rows 0
            else ⟨p5.rows, [], 0, 0⟩
  let p7 := if "market_approach_value" ∈ t.cols then
              colPassRows "market_approach_value" (mavDecide t.cols) p6.rows 0
            else ⟨p6.rows, [], 0, 0⟩
  let p8 := if "production_capacity" ∈ t.cols then
              colPassRows "production_capacity" productionDecide p7.rows 0
            else ⟨p7.rows, [], 0, 0⟩
  (⟨t.cols, p8.rows⟩,
   p4.keys ++ p5.keys ++ p6.keys ++ p7.keys ++ p8.keys,
   p4.nflag + p5.nflag + p6.nflag + p7.nflag + p8.nflag)

/-- `validate_all` (lines 233-324): mandatory presence, then final
value, then dates, then the additional checks; highlights accumulate and
summaries concatenate in that order. -/
def validate_all (t : Table) : Table × List (Nat × String) × List String :=
  let m := validate_mandatory_only t
  let f := validate_final_value_only m.1
  let d := validate_dates_only f.1
  let e := validate_all_extra d.1
  (e.1,
   m.2.1 ++ f.2.1 ++ d.2.1 ++ e.2.1,
   m.2.2 ++ f.2.2 ++ d.2.2 ++ ["Additional rule violations: " ++ natStr e.2.2])

/-! ## Heap model for the copy/mutation discipline

Each validator's first statement is `df = df.copy()`; everything after
mutates only that copy.  To make this observable, the validators are
also given in a reference-passing form over a heap of tables: the copy
allocates a fresh reference, and the rule passes write only through that
fresh reference (the cell-level in-place writes are collapsed into one
store of the final table, which is observationally equivalent because no
other reference is read or written in between). -/

structure Heap where
  tables : List Table
deriving DecidableEq

def Heap.get (h : Heap) (r : Nat) : Table := h.tables.getD r ⟨[], []⟩

def Heap.set (h : Heap) (r : Nat) (t : Table) : Heap := ⟨h.tables.set r t⟩

/-- `df.copy()`: allocate a fresh reference holding the same table. -/
def Heap.alloc (h : Heap) (t : Table) : Heap × Nat :=
  (⟨h.tables ++ [t]⟩, h.tables.length)

/-- Copy the referenced table, run the pure rule passes on the copy and
store the result through the fresh reference only. -/
def runOnCopy (f : Table → Table × List (Nat × String) × List String)
    (h : Heap) (r : Nat) : Heap × Nat × List (Nat × String) × List String :=
  let a := h.alloc (h.get r)
  let out := f (a.1.get a.2)
  (a.1.set a.2 out.1, a.2, out.2.1, out.2.2)

def validate_final_value_only_H : Heap → Nat → Heap × Nat × List (Nat × String) × List String :=
  runOnCopy validate_final_value_only

def validate_mandatory_only_H : Heap → Nat → Heap × Nat × List (Nat × String) × List String :=
  runOnCopy validate_mandatory_only

def validate_dates_only_H : Heap → Nat → Heap × Nat × List (Nat × String) × List String :=
  runOnCopy validate_dates_only

/-- `validate_all` in the heap form: its own `df.copy()`, then the three
sub-validators (each copying again, as in the source), then the
additional checks written back through the last reference. -/
def validate_all_H (h : Heap) (r : Nat) : Heap × Nat × List (Nat × String) × List String :=
  let a := h.alloc (h.get r)
  let m := validate_mandatory_only_H a.1 a.2
  let f := validate_final_value_only_H m.1 m.2.1
  let d := validate_dates_only_H f.1 f.2.1
  let e := validate_all_extra (d.1.get d.2.1)
  (d.1.set d.2.1 e.1, d.2.1,
   m.2.2.1 ++ f.2.2.1 ++ d.2.2.1 ++ e.2.1,
   m.2.2.2 ++ f.2.2.2 ++ d.2.2.2 ++ ["Additional rule violations: " ++ natStr e.2.2])


/-! ## Concrete tables used as witnesses and counterexamples -/

/-- A one-row table with all expected columns and every rule satisfied. -/
def validW : Table :=
  ⟨EXPECTED_COLUMNS,
   [[("macroid", Value.vstr "1"), ("asset_type", Value.vstr "t"),
     ("asset_name", Value.vstr "n"), ("final_value", Value.vstr "97000"),
     ("asset_usage_id", Value.vstr "40"), ("value_base", Value.vstr "5"),
     ("inspection_date", Value.vstr "15-03-2024"),
     ("production_capacity", Value.vstr "10"),
     ("production_capacity_measuring_unit", Value.vstr "u"),
     ("owner_name", Value.vstr "o"), ("product_type", Value.vstr "p"),
     ("market_approach", Value.vstr "1"),
     ("market_approach_value", Value.vstr "1000"),
     ("cost_approach", Value.vstr ""), ("cost_approach_value", Value.vstr ""),
     ("country", Value.vstr "c"), ("region", Value.vstr "r"),
     ("city", Value.vstr "x")]]⟩

/-- The same one-row table with an empty (NaN) final_value cell. -/
def emptyFinalW : Table :=
  ⟨EXPECTED_COLUMNS,
   [[("macroid", Value.vstr "1"), ("asset_type", Value.vstr "t"),
     ("asset_name", Value.vstr "n"), ("final_value", Value.vnan),
     ("asset_usage_id", Value.vstr "40"), ("value_base", Value.vstr "5"),
     ("inspection_date", Value.vstr "15-03-2024"),
     ("production_capacity", Value.vstr "10"),
     ("production_capacity_measuring_unit", Value.vstr "u"),
     ("owner_name", Value.vstr "o"), ("product_type", Value.vstr "p"),
     ("market_approach", Value.vstr "1"),
     ("market_approach_value", Value.vstr "1000"),
     ("cost_approach", Value.vstr ""), ("cost_approach_value", Value.vstr ""),
     ("country", Value.vstr "c"), ("region", Value.vstr "r"),
     ("city", Value.vstr "x")]]⟩

/-- A rowless table with all expected columns. -/
def emptyRowsW : Table := ⟨EXPECTED_COLUMNS, []⟩

/-- A rowless table missing only final_value. -/
def noFinalW : Table := ⟨EXPECTED_COLUMNS.filter (fun c => c ≠ "final_value"), []⟩

/-- A rowless table missing only inspection_date. -/
def noDateW : Table := ⟨EXPECTED_COLUMNS.filter (fun c => c ≠ "inspection_date"), []⟩

/-- Decision functions that never auto-fix (all but the date rule). -/
def NoFix (d : Row → Act) : Prop :=
  ∀ r : Row, d r = Act.keep ∨ ∃ m, d r = Act.flag m

/-! ## Lemmas: rows and column passes -/

lemma row_get_set_self (r : Row) (c : String) (v : Value) :
    Row.get (Row.set r c v) c = v := by
  induction r with
  | nil => simp [Row.set, Row.get]
  | cons p rest ih =>
    by_cases hp : p.1 = c
    · simp [Row.set, Row.get, hp]
    · simp [Row.set, Row.get, hp, ih]

lemma row_get_set_ne (r : Row) (c c' : String) (v : Value) (h : c' ≠ c) :
    Row.get (Row.set r c v) c' = Row.get r c' := by
  have hcc : ¬c = c' := fun hh => h hh.symm
  induction r with
  | nil => simp [Row.set, Row.get, hcc]
  | cons p rest ih =>
    obtain ⟨pc, pv⟩ := p
    by_cases hp : pc = c
    · subst hp
      simp [Row.set, Row.get, hcc]
    · simp [Row.set, Row.get, hp, ih]

lemma colPassRows_length (c : String) (d : Row → Act) (rows : List Row) :
    ∀ s : Nat, (colPassRows c d rows s).rows.length = rows.length := by
  induction rows with
  | nil => intro s; rfl
  | cons r rest ih =>
    intro s
    cases hd : d r <;> simp [colPassRows, hd, ih]

lemma colPassRows_get (c : String) (d : Row → Act) (rows : List Row) :
    ∀ s idx : Nat, idx < rows.length →
    (colPassRows c d rows s).rows.getD idx [] =
      applyAct c (rows.getD idx []) (d (rows.getD idx [])) := by
  induction rows with
  | nil => intro s idx h; simp at h
  | cons r rest ih =>
    intro s idx h
    cases idx with
    | zero => cases hd : d r <;> simp [colPassRows, hd, applyAct]
    | succ n =>
      have hn : n < rest.length := by simpa using h
      cases hd : d r <;> simp [colPassRows, hd] <;> simpa using ih (s + 1) n hn

lemma colPassRows_key_of_flag (c : String) (d : Row → Act) (rows : List Row) :
    ∀ (s idx : Nat) (m : String), idx < rows.length →
    d (rows.getD idx []) = Act.flag m →
    (s + idx, c) ∈ (colPassRows c d rows s).keys := by
  induction rows with
  | nil => intro s idx m h; simp at h
  | cons r rest ih =>
    intro s idx m h hf
    cases idx with
    | zero =>
      simp only [List.getD_cons_zero] at hf
      simp [colPassRows, hf]
    | succ n =>
      have hn : n < rest.length := by simpa using h
      simp only [List.getD_cons_succ] at hf
      have := ih (s + 1) n m hn hf
      have harith : s + 1 + n = s + (n + 1) := by omega
      cases hd : d r <;> simp [colPassRows, hd] <;> rw [← harith] <;> exact this

lemma colPassRows_cell_ne (c c' : String) (hc : c' ≠ c) (d : Row → Act)
    (rows : List Row) (s idx : Nat) :
    Row.get ((colPassRows c d rows s).rows.getD idx []) c' =
      Row.get (rows.getD idx []) c' := by
  by_cases h : idx < rows.length
  · rw [colPassRows_get c d rows s idx h]
    cases hd : d (rows.getD idx []) <;>
      simp [applyAct, row_get_set_ne _ _ _ _ hc]
  · have h1 : rows.length ≤ idx := Nat.le_of_not_lt h
    have h2 : (colPassRows c d rows s).rows.length ≤ idx := by
      rw [colPassRows_length]; exact h1
    rw [List.getD_eq_default _ _ h1, List.getD_eq_default _ _ h2]

lemma colPassRows_cell_noflag (c : String) (d : Row → Act) (hnf : NoFix d)
    (rows : List Row) (idx : Nat)
    (hk : (idx, c) ∉ (colPassRows c d rows 0).keys) :
    Row.get ((colPassRows c d rows 0).rows.getD idx []) c =
      Row.get (rows.getD idx []) c := by
  by_cases h : idx < rows.length
  · rw [colPassRows_get c d rows 0 idx h]
    rcases hnf (rows.getD idx []) with hkeep | ⟨m, hflag⟩
    · rw [hkeep]; rfl
    · have := colPassRows_key_of_flag c d rows 0 idx m h hflag
      rw [Nat.zero_add] at this
      exact absurd this hk
  · have h1 : rows.length ≤ idx := Nat.le_of_not_lt h
    have h2 : (colPassRows c d rows 0).rows.length ≤ idx := by
      rw [colPassRows_length]; exact h1
    rw [List.getD_eq_default _ _ h1, List.getD_eq_default _ _ h2]

/-! ## Lemmas: decision functions never auto-fix (only the date rule does) -/

lemma mandDecide_noFix (cols : List String) (col : String) : NoFix (mandDecide cols col) := by
  intro r
  unfold mandDecide
  dsimp only
  repeat' split
  all_goals first
    | exact Or.inl rfl
    | exact Or.inr ⟨_, rfl⟩

lemma finalDecide_noFix : NoFix finalDecide := by
  intro r
  unfold finalDecide
  dsimp only
  repeat' split
  all_goals first
    | exact Or.inl rfl
    | exact Or.inr ⟨_, rfl⟩

lemma usageDecide_noFix : NoFix usageDecide := by
  intro r
  unfold usageDecide
  dsimp only
  repeat' split
  all_goals first
    | exact Or.inl rfl
    | exact Or.inr ⟨_, rfl⟩

lemma valueBaseDecide_noFix : NoFix valueBaseDecide := by
  intro r
  unfold valueBaseDecide
  dsimp only
  repeat' split
  all_goals first
    | exact Or.inl rfl
    | exact Or.inr ⟨_, rfl⟩

lemma marketDecide_noFix : NoFix marketDecide := by
  intro r
  unfold marketDecide
  dsimp only
  repeat' split
  all_goals first
    | exact Or.inl rfl
    | exact Or.inr ⟨_, rfl⟩

lemma mavDecide_noFix (cols : List String) : NoFix (mavDecide cols) := by
  intro r
  unfold mavDecide
  dsimp only
  repeat' split
  all_goals first
    | exact Or.inl rfl
    | exact Or.inr ⟨_, rfl⟩

lemma productionDecide_noFix : NoFix productionDecide := by
  intro r
  unfold productionDecide
  dsimp only
  repeat' split
  all_goals first
    | exact Or.inl rfl
    | exact Or.inr ⟨_, rfl⟩

/-! ## Lemmas: the mandatory loop -/

lemma mandLoop_length (cols : List String) :
    ∀ (fields : List String) (rows : List Row),
    (mandLoop cols fields rows).1.length = rows.length := by
  intro fields
  induction fields with
  | nil => intro rows; rfl
  | cons col rest ih =>
    intro rows
    by_cases h : col ∈ cols
    · simp only [mandLoop, if_pos h]
      rw [ih]
      exact colPassRows_length _ _ _ _
    · simp only [mandLoop, if_neg h]
      exact ih rows

lemma mandLoop_cell_ne (cols : List String) (c : String) :
    ∀ (fields : List String) (rows : List Row) (idx : Nat),
    (∀ col ∈ fields, c ≠ col) →
    Row.get ((mandLoop cols fields rows).1.getD idx []) c =
      Row.get (rows.getD idx []) c := by
  intro fields
  induction fields with
  | nil => intro rows idx _; rfl
  | cons col rest ih =>
    intro rows idx hall
    have hc : c ≠ col := hall col (List.mem_cons_self _ _)
    have hrest : ∀ x ∈ rest, c ≠ x := fun x hx => hall x (List.mem_cons_of_mem _ hx)
    by_cases h : col ∈ cols
    · simp only [mandLoop, if_pos h]
      rw [ih _ idx hrest]
      exact colPassRows_cell_ne col c hc _ rows 0 idx
    · simp only [mandLoop, if_neg h]
      exact ih rows idx hrest

lemma mandLoop_cell_keyframe (cols : List String) (c : String) :
    ∀ (fields : List String) (rows : List Row) (idx : Nat),
    (idx, c) ∉ (mandLoop cols fields rows).2.1 →
    Row.get ((mandLoop cols fields rows).1.getD idx []) c =
      Row.get (rows.getD idx []) c := by
  intro fields
  induction fields with
  | nil => intro rows idx _; rfl
  | cons col rest ih =>
    intro rows idx hk
    by_cases h : col ∈ cols
    · simp only [mandLoop, if_pos h] at hk ⊢
      have hk1 : (idx, c) ∉ (colPassRows col (mandDecide cols col) rows 0).keys :=
        fun hx => hk (List.mem_append.mpr (Or.inl hx))
      have hk2 : (idx, c) ∉ (mandLoop cols rest (colPassRows col (mandDecide cols col) rows 0).rows).2.1 :=
        fun hx => hk (List.mem_append.mpr (Or.inr hx))
      rw [ih _ idx hk2]
      by_cases hc : c = col
      · subst hc
        exact colPassRows_cell_noflag c _ (mandDecide_noFix cols c) rows idx hk1
      · exact colPassRows_cell_ne col c hc _ rows 0 idx
    · simp only [mandLoop, if_neg h] at hk ⊢
      exact ih rows idx hk

lemma mandLoop_append (cols : List String) :
    ∀ (as bs : List String) (rows : List Row),
    mandLoop cols (as ++ bs) rows =
      ((mandLoop cols bs (mandLoop cols as rows).1).1,
       (mandLoop cols as rows).2.1 ++ (mandLoop cols bs (mandLoop cols as rows).1).2.1,
       (mandLoop cols as rows).2.2 + (mandLoop cols bs (mandLoop cols as rows).1).2.2) := by
  intro as
  induction as with
  | nil => intro bs rows; simp [mandLoop]
  | cons col rest ih =>
    intro bs rows
    by_cases h : col ∈ cols
    · simp only [List.cons_append, mandLoop, if_pos h, List.append_eq]
      rw [ih]
      simp only [Prod.mk.injEq, true_and]
      exact ⟨(List.append_assoc _ _ _).symm, by omega⟩
    · simp only [List.cons_append, mandLoop, if_neg h]
      exact ih bs rows

/-! ## Lemmas: structure of the validators -/

lemma cols_mandatory (t : Table) : (validate_mandatory_only t).1.cols = t.cols := rfl

lemma cols_final (t : Table) : (validate_final_value_only t).1.cols = t.cols := by
  unfold validate_final_value_only
  split <;> rfl

lemma cols_dates (t : Table) : (validate_dates_only t).1.cols = t.cols := by
  unfold validate_dates_only
  split <;> rfl

lemma cols_extra (t : Table) : (validate_all_extra t).1.cols = t.cols := rfl

lemma cols_all (t : Table) : (validate_all t).1.cols = t.cols := by
  show (validate_all_extra _).1.cols = t.cols
  rw [cols_extra, cols_dates, cols_final, cols_mandatory]

/-! ## Lemmas: digits, decimal rendering, stripping, token splitting -/

lemma digitChar_isDigit (n : Nat) : isDigitC (digitChar n) = true := by
  unfold digitChar
  repeat' split
  all_goals decide

lemma digitChar_toNat (n : Nat) (h : n < 10) : (digitChar n).toNat = 48 + n := by
  interval_cases n <;> decide

lemma isDigitC_not_space (c : Char) (h : isDigitC c = true) : isSpaceC c = false := by
  unfold isDigitC at h
  unfold isSpaceC
  simp only [Bool.and_eq_true, decide_eq_true_eq] at h
  simp only [Bool.or_eq_false_iff, decide_eq_false_iff_not]
  omega

lemma isDigitC_not_sep (c : Char) (h : isDigitC c = true) : isSepC c = false := by
  unfold isSepC
  simp only [Bool.or_eq_false_iff, decide_eq_false_iff_not]
  refine ⟨⟨⟨?_, ?_⟩, ?_⟩, ?_⟩ <;> rintro rfl <;> exact absurd h (by decide)

lemma digitsToNat_append (xs : List Char) (c : Char) :
    digitsToNat (xs ++ [c]) = digitsToNat xs * 10 + (c.toNat - 48) := by
  simp [digitsToNat, List.foldl_append]

lemma natDigitsAux_congr : ∀ (f1 f2 n : Nat), n < f1 → n < f2 →
    natDigitsAux f1 n = natDigitsAux f2 n := by
  intro f1
  induction f1 with
  | zero => intro f2 n h1; omega
  | succ f ih =>
    intro f2 n h1 h2
    cases f2 with
    | zero => omega
    | succ g =>
      by_cases h : n < 10
      · simp [natDigitsAux, h]
      · simp only [natDigitsAux, if_neg h]
        rw [ih g (n / 10) (by omega) (by omega)]

lemma natDigits_eq (n : Nat) :
    natDigits n = if n < 10 then [digitChar n]
                  else natDigits (n / 10) ++ [digitChar (n % 10)] := by
  by_cases h : n < 10
  · simp [natDigits, natDigitsAux, h]
  · simp only [if_neg h]
    show natDigitsAux (n + 1) n = _
    rw [natDigitsAux, if_neg h]
    congr 1
    exact natDigitsAux_congr n (n / 10 + 1) (n / 10) (by omega) (by omega)

lemma natDigits_digits (n : Nat) : ∀ c ∈ natDigits n, isDigitC c = true := by
  induction n using Nat.strong_induction_on with
  | _ n ih =>
    intro c hc
    rw [natDigits_eq] at hc
    by_cases h : n < 10
    · rw [if_pos h] at hc
      simp only [List.mem_singleton] at hc
      subst hc
      exact digitChar_isDigit n
    · rw [if_neg h] at hc
      rcases List.mem_append.mp hc with h1 | h2
      · exact ih (n / 10) (by omega) c h1
      · simp only [List.mem_singleton] at h2
        subst h2
        exact digitChar_isDigit _

lemma natDigits_ne_nil (n : Nat) : natDigits n ≠ [] := by
  rw [natDigits_eq]
  split
  · simp
  · simp

lemma digitsToNat_natDigits (n : Nat) : digitsToNat (natDigits n) = n := by
  induction n using Nat.strong_induction_on with
  | _ n ih =>
    rw [natDigits_eq]
    by_cases h : n < 10
    · rw [if_pos h]
      show 0 * 10 + ((digitChar n).toNat - 48) = n
      rw [digitChar_toNat n h]
      omega
    · rw [if_neg h]
      rw [digitsToNat_append, ih (n / 10) (by omega), digitChar_toNat (n % 10) (by omega)]
      omega

lemma natDigits_len1 (n : Nat) (h : n < 10) : (natDigits n).length = 1 := by
  rw [natDigits_eq, if_pos h]
  rfl

lemma natDigits_len2 (n : Nat) (h1 : 10 ≤ n) (h2 : n < 100) : (natDigits n).length = 2 := by
  rw [natDigits_eq, if_neg (by omega)]
  rw [List.length_append, natDigits_len1 (n / 10) (by omega)]
  rfl

lemma natDigits_len3 (n : Nat) (h1 : 100 ≤ n) (h2 : n < 1000) : (natDigits n).length = 3 := by
  rw [natDigits_eq, if_neg (by omega)]
  rw [List.length_append, natDigits_len2 (n / 10) (by omega) (by omega)]
  rfl

lemma natDigits_len4 (n : Nat) (h1 : 1000 ≤ n) (h2 : n < 10000) : (natDigits n).length = 4 := by
  rw [natDigits_eq, if_neg (by omega)]
  rw [List.length_append, natDigits_len3 (n / 10) (by omega) (by omega)]
  rfl

lemma pad2_digits (n : Nat) : ∀ c ∈ pad2 n, isDigitC c = true := by
  intro c hc
  unfold pad2 at hc
  split at hc
  · rcases List.mem_cons.mp hc with rfl | hc2
    · decide
    · rw [List.mem_singleton.mp hc2]
      exact digitChar_isDigit n
  · exact natDigits_digits n c hc

lemma pad2_len (n : Nat) (h : n < 100) : (pad2 n).length = 2 := by
  unfold pad2
  split
  · rfl
  · exact natDigits_len2 n (by omega) h

lemma digitsToNat_pad2 (n : Nat) (h : n < 100) : digitsToNat (pad2 n) = n := by
  unfold pad2
  split
  · show (0 * 10 + (('0').toNat - 48)) * 10 + ((digitChar n).toNat - 48) = n
    rw [digitChar_toNat n (by omega)]
    have h0 : ('0').toNat = 48 := rfl
    rw [h0]
    omega
  · exact digitsToNat_natDigits n

lemma dropWhile_space_eq_self (l : List Char) (h : ∀ c ∈ l, isSpaceC c = false) :
    l.dropWhile isSpaceC = l := by
  cases l with
  | nil => rfl
  | cons a l => simp [List.dropWhile_cons, h a (List.mem_cons_self _ _)]

lemma stripList_eq_self (cs : List Char) (h : ∀ c ∈ cs, isSpaceC c = false) :
    stripList cs = cs := by
  unfold stripList
  rw [dropWhile_space_eq_self cs h]
  rw [dropWhile_space_eq_self cs.reverse (fun c hc => h c (List.mem_reverse.mp hc))]
  exact List.reverse_reverse cs

lemma splitSeps_sepfree (cs : List Char) (hne : cs ≠ [])
    (h : ∀ c ∈ cs, isSepC c = false) : splitSeps cs = [cs] := by
  induction cs with
  | nil => cases hne rfl
  | cons c rest ih =>
    have hc : isSepC c = false := h c (List.mem_cons_self _ _)
    by_cases h0 : rest = []
    · subst h0
      simp [splitSeps, hc]
    · have := ih h0 (fun x hx => h x (List.mem_cons_of_mem _ hx))
      simp [splitSeps, hc, this]

lemma splitSeps_append (x : Char) (hx : isSepC x = true) :
    ∀ (a b : List Char), (∀ c ∈ a, isSepC c = false) →
    splitSeps (a ++ x :: b) = a :: splitSeps b := by
  intro a
  induction a with
  | nil => intro b _; simp [splitSeps, hx]
  | cons c rest ih =>
    intro b h
    have hc : isSepC c = false := h c (List.mem_cons_self _ _)
    have hr := ih b (fun y hy => h y (List.mem_cons_of_mem _ hy))
    simp [splitSeps, hc, hr]

/-! ## Lemmas: the date parse round-trip -/

lemma isEmpty_false_of_ne_nil {α : Type} (l : List α) (h : l ≠ []) : l.isEmpty = false := by
  cases l with
  | nil => cases h rfl
  | cons a l => rfl

lemma mkDateQ_some (day mon yr : Nat) (d : PDate) (h : mkDateQ day mon yr = some d) :
    d.day = day ∧ d.month = mon ∧ d.year = yr ∧
    validDMY day mon yr = true ∧ inTsBounds day mon yr = true := by
  unfold mkDateQ at h
  split at h
  · rename_i hcond
    cases h
    simp only [Bool.and_eq_true] at hcond
    exact ⟨rfl, rfl, rfl, hcond.1, hcond.2⟩
  · cases h

lemma daysInMonth_le (y m : Nat) : daysInMonth y m ≤ 31 := by
  unfold daysInMonth
  repeat' split
  all_goals omega

lemma validDMY_bounds (day mon yr : Nat) (h : validDMY day mon yr = true) :
    1 ≤ mon ∧ mon ≤ 12 ∧ 1 ≤ day ∧ day ≤ 31 := by
  unfold validDMY at h
  simp only [Bool.and_eq_true, decide_eq_true_eq] at h
  have := daysInMonth_le yr mon
  omega

lemma inTsBounds_year (day mon yr : Nat) (h : inTsBounds day mon yr = true) :
    1677 ≤ yr ∧ yr ≤ 2262 := by
  unfold inTsBounds dateLE at h
  simp only [Bool.and_eq_true, Bool.or_eq_true, decide_eq_true_eq] at h
  omega

lemma pdToDatetimeQ_checks (s : String) (d : PDate) (h : pdToDatetimeQ s = some d) :
    validDMY d.day d.month d.year = true ∧ inTsBounds d.day d.month d.year = true := by
  unfold pdToDatetimeQ at h
  dsimp only at h
  repeat' split at h
  all_goals first
    | cases h
    | (obtain ⟨e1, e2, e3, h4, h5⟩ := mkDateQ_some _ _ _ _ h
       rw [e1, e2, e3]
       exact ⟨h4, h5⟩)

lemma strftime_toList (d : PDate) :
    (strftimeDMY d).toList = pad2 d.day ++ '-' :: (pad2 d.month ++ '-' :: natDigits d.year) := rfl

lemma parse_strftime (d : PDate) (hv : validDMY d.day d.month d.year = true)
    (hb : inTsBounds d.day d.month d.year = true) :
    pdToDatetimeQ (strftimeDMY d) = some d := by
  obtain ⟨hm1, hm12, hd1, hd31⟩ := validDMY_bounds _ _ _ hv
  obtain ⟨hy1, hy2⟩ := inTsBounds_year _ _ _ hb
  have hdayfree : ∀ c ∈ pad2 d.day, isSepC c = false :=
    fun c hc => isDigitC_not_sep c (pad2_digits _ c hc)
  have hmonfree : ∀ c ∈ pad2 d.month, isSepC c = false :=
    fun c hc => isDigitC_not_sep c (pad2_digits _ c hc)
  have hyrfree : ∀ c ∈ natDigits d.year, isSepC c = false :=
    fun c hc => isDigitC_not_sep c (natDigits_digits _ c hc)
  have hsplit : splitSeps ((strftimeDMY d).toList) = [pad2 d.day, pad2 d.month, natDigits d.year] := by
    rw [strftime_toList]
    rw [splitSeps_append '-' (by decide) _ _ hdayfree]
    rw [splitSeps_append '-' (by decide) _ _ hmonfree]
    rw [splitSeps_sepfree _ (natDigits_ne_nil _) hyrfree]
  have hta : validToken (pad2 d.day) = true := by
    unfold validToken
    rw [isEmpty_false_of_ne_nil _ (List.length_pos.mp (by rw [pad2_len d.day (by omega)]; omega))]
    rw [List.all_eq_true.mpr (fun c hc => pad2_digits _ c hc)]
    rfl
  have htb : validToken (pad2 d.month) = true := by
    unfold validToken
    rw [isEmpty_false_of_ne_nil _ (List.length_pos.mp (by rw [pad2_len d.month (by omega)]; omega))]
    rw [List.all_eq_true.mpr (fun c hc => pad2_digits _ c hc)]
    rfl
  have htc : validToken (natDigits d.year) = true := by
    unfold validToken
    rw [isEmpty_false_of_ne_nil _ (natDigits_ne_nil _)]
    rw [List.all_eq_true.mpr (fun c hc => natDigits_digits _ c hc)]
    rfl
  unfold pdToDatetimeQ
  rw [hsplit]
  dsimp only
  rw [if_pos (by rw [hta, htb, htc]; rfl)]
  rw [if_neg (by rw [pad2_len d.day (by omega)]; omega)]
  rw [if_pos (natDigits_len4 d.year (by omega) (by omega))]
  rw [if_neg (by
    rw [digitsToNat_pad2 d.day (by omega), digitsToNat_pad2 d.month (by omega)]
    simp only [Bool.and_eq_true, decide_eq_true_eq]
    omega)]
  rw [digitsToNat_pad2 d.day (by omega), digitsToNat_pad2 d.month (by omega),
      digitsToNat_natDigits]
  unfold mkDateQ
  rw [if_pos (by rw [hv, hb]; rfl)]

lemma is_empty_str (s : String) : is_empty (Value.vstr s) = decide (pyStrip s = "") := by
  unfold is_empty
  by_cases h : pyStrip s = "" <;> simp [h]

lemma pyStrip_strftime (d : PDate) : pyStrip (strftimeDMY d) = strftimeDMY d := by
  unfold pyStrip
  rw [stripList_eq_self]
  · rfl
  · intro c hc
    rw [strftime_toList] at hc
    rcases List.mem_append.mp hc with h1 | h2
    · exact isDigitC_not_space c (pad2_digits _ c h1)
    · rcases List.mem_cons.mp h2 with rfl | h3
      · decide
      · rcases List.mem_append.mp h3 with h4 | h5
        · exact isDigitC_not_space c (pad2_digits _ c h4)
        · rcases List.mem_cons.mp h5 with rfl | h6
          · decide
          · exact isDigitC_not_space c (natDigits_digits _ c h6)

lemma strftime_ne_empty (d : PDate) : strftimeDMY d ≠ "" := by
  intro h
  have h2 : (strftimeDMY d).toList = [] := by rw [h]; rfl
  rw [strftime_toList] at h2
  simp at h2

lemma pafd_roundtrip (v : Value) (s : String)
    (h : parse_and_format_date v = (true, some s)) :
    parse_and_format_date (Value.vstr s) = (true, some s) := by
  unfold parse_and_format_date parse_and_format_dateE at h
  by_cases he : is_empty v = true
  · rw [if_pos he] at h
    dsimp only at h
    exact absurd (congrArg Prod.fst h) (by simp)
  · rw [if_neg he] at h
    cases hp : pdToDatetimeE (pyStrip (pyStr v)) with
    | ok d =>
      rw [hp] at h
      dsimp only at h
      have hs : strftimeDMY d = s := by
        simpa using h
      subst hs
      have hd : pdToDatetimeQ (pyStrip (pyStr v)) = some d := by
        unfold pdToDatetimeE at hp
        split at hp
        · rename_i hq
          cases hp
          exact hq
        · cases hp
      obtain ⟨hv2, hb2⟩ := pdToDatetimeQ_checks _ _ hd
      unfold parse_and_format_date parse_and_format_dateE
      have hemp : is_empty (Value.vstr (strftimeDMY d)) = false := by
        rw [is_empty_str]
        simp [pyStrip_strftime, strftime_ne_empty d]
      have hE : pdToDatetimeE (pyStrip (pyStr (Value.vstr (strftimeDMY d)))) = Except.ok d := by
        show pdToDatetimeE (pyStrip (strftimeDMY d)) = _
        rw [pyStrip_strftime]
        unfold pdToDatetimeE
        rw [parse_strftime d hv2 hb2]
      rw [if_neg (by rw [hemp]; exact Bool.false_ne_true)]
      rw [hE]
    | error e =>
      rw [hp] at h
      dsimp only at h
      exact absurd (congrArg Prod.fst h) (by simp)

/-! ## Lemmas: per-validator cell access and frames -/

lemma rows_len_mandatory (t : Table) :
    (validate_mandatory_only t).1.rows.length = t.rows.length :=
  mandLoop_length t.cols MANDATORY_FIELDS t.rows

lemma rows_len_final (t : Table) :
    (validate_final_value_only t).1.rows.length = t.rows.length := by
  unfold validate_final_value_only
  split
  · exact colPassRows_length _ _ _ _
  · rfl

lemma rows_len_dates (t : Table) :
    (validate_dates_only t).1.rows.length = t.rows.length := by
  unfold validate_dates_only
  split
  · exact colPassRows_length _ _ _ _
  · rfl

lemma stage_cell_ne (cond : Prop) [Decidable cond] (cp : String) (d : Row → Act)
    (rows : List Row) (idx : Nat) (c : String) (hc : c ≠ cp) :
    Row.get (((if cond then colPassRows cp d rows 0 else ⟨rows, [], 0, 0⟩).rows).getD idx []) c =
      Row.get (rows.getD idx []) c := by
  split
  · exact colPassRows_cell_ne cp c hc d rows 0 idx
  · rfl

lemma final_cell (t : Table) (idx : Nat) (hidx : idx < t.rows.length)
    (hcol : "final_value" ∈ t.cols) :
    getCell (validate_final_value_only t).1 idx "final_value" =
      Row.get (applyAct "final_value" (t.rows.getD idx []) (finalDecide (t.rows.getD idx []))) "final_value" := by
  unfold validate_final_value_only getCell
  rw [if_pos hcol]
  dsimp only
  rw [colPassRows_get _ _ _ 0 idx hidx]

lemma final_cell_ne (t : Table) (idx : Nat) (c : String) (hc : c ≠ "final_value") :
    getCell (validate_final_value_only t).1 idx c = getCell t idx c := by
  unfold validate_final_value_only getCell
  split
  · dsimp only
    exact colPassRows_cell_ne _ c hc _ t.rows 0 idx
  · rfl

lemma dates_cell (t : Table) (idx : Nat) (hidx : idx < t.rows.length)
    (hcol : "inspection_date" ∈ t.cols) :
    getCell (validate_dates_only t).1 idx "inspection_date" =
      Row.get (applyAct "inspection_date" (t.rows.getD idx []) (dateDecide (t.rows.getD idx []))) "inspection_date" := by
  unfold validate_dates_only getCell
  rw [if_pos hcol]
  dsimp only
  rw [colPassRows_get _ _ _ 0 idx hidx]

lemma dates_cell_ne (t : Table) (idx : Nat) (c : String) (hc : c ≠ "inspection_date") :
    getCell (validate_dates_only t).1 idx c = getCell t idx c := by
  unfold validate_dates_only getCell
  split
  · dsimp only
    exact colPassRows_cell_ne _ c hc _ t.rows 0 idx
  · rfl

lemma mand_cell_ne (t : Table) (idx : Nat) (c : String)
    (hall : ∀ col ∈ MANDATORY_FIELDS, c ≠ col) :
    getCell (validate_mandatory_only t).1 idx c = getCell t idx c :=
  mandLoop_cell_ne t.cols c MANDATORY_FIELDS t.rows idx hall

lemma extra_cell_ne (t : Table) (idx : Nat) (c : String)
    (h1 : c ≠ "asset_usage_id") (h2 : c ≠ "value_base") (h3 : c ≠ "market_approach")
    (h4 : c ≠ "market_approach_value") (h5 : c ≠ "production_capacity") :
    getCell (validate_all_extra t).1 idx c = getCell t idx c := by
  unfold validate_all_extra getCell
  dsimp only
  rw [stage_cell_ne _ _ _ _ idx c h5]
  rw [stage_cell_ne _ _ _ _ idx c h4]
  rw [stage_cell_ne _ _ _ _ idx c h3]
  rw [stage_cell_ne _ _ _ _ idx c h2]
  rw [stage_cell_ne _ _ _ _ idx c h1]

lemma mandLoop_cons (cols : List String) (col : String) (rest : List String) (rows : List Row) :
    mandLoop cols (col :: rest) rows =
      if col ∈ cols then
        ((mandLoop cols rest (colPassRows col (mandDecide cols col) rows 0).rows).1,
         (colPassRows col (mandDecide cols col) rows 0).keys ++
           (mandLoop cols rest (colPassRows col (mandDecide cols col) rows 0).rows).2.1,
         (colPassRows col (mandDecide cols col) rows 0).nflag +
           (mandLoop cols rest (colPassRows col (mandDecide cols col) rows 0).rows).2.2)
      else mandLoop cols rest rows := rfl

/-! ## Lemmas: the final_value cell under the mandatory pass -/

lemma append_m1_of_empty (v : Value) (h : is_empty v = true) :
    append_message v "This mandatory field is empty" = "This mandatory field is empty" ∨
    append_message v "This mandatory field is empty" =
      "None | This mandatory field is empty" := by
  cases v with
  | vnone => right; decide
  | vnan => left; decide
  | vstr s =>
    left
    rw [is_empty_str] at h
    have hs : pyStrip s = "" := of_decide_eq_true h
    unfold append_message
    simp [pyStr, hs]

lemma mand_final_cell (t : Table) (idx : Nat) (hidx : idx < t.rows.length)
    (hcol : "final_value" ∈ t.cols)
    (hempty : is_empty (getCell t idx "final_value") = true) :
    getCell (validate_mandatory_only t).1 idx "final_value" =
      Value.vstr (append_message (getCell t idx "final_value") "This mandatory field is empty") := by
  show Row.get (((mandLoop t.cols MANDATORY_FIELDS t.rows).1).getD idx []) "final_value" = _
  have hsplit2 : MANDATORY_FIELDS =
      (["asset_type", "asset_name", "asset_usage_id", "value_base", "inspection_date"] : List String) ++
      "final_value" :: ["production_capacity", "production_capacity_measuring_unit", "owner_name",
        "product_type", "market_approach", "market_approach_value", "country", "region", "city"] := rfl
  rw [hsplit2, mandLoop_append]
  dsimp only
  rw [mandLoop_cons, if_pos hcol]
  dsimp only
  rw [mandLoop_cell_ne t.cols "final_value" _ _ idx (by decide)]
  have hidx1 : idx <
      (mandLoop t.cols ["asset_type", "asset_name", "asset_usage_id", "value_base", "inspection_date"] t.rows).1.length := by
    rw [mandLoop_length]
    exact hidx
  rw [colPassRows_get _ _ _ 0 idx hidx1]
  have hval : Row.get (((mandLoop t.cols
      ["asset_type", "asset_name", "asset_usage_id", "value_base", "inspection_date"] t.rows).1).getD idx [])
      "final_value" = getCell t idx "final_value" :=
    mandLoop_cell_ne t.cols "final_value" _ t.rows idx (by decide)
  have hdec : mandDecide t.cols "final_value"
      (((mandLoop t.cols ["asset_type", "asset_name", "asset_usage_id", "value_base", "inspection_date"] t.rows).1).getD idx []) =
      Act.flag "This mandatory field is empty" := by
    unfold mandDecide
    dsimp only
    rw [hval]
    rw [if_pos hempty]
    rw [if_neg (by decide), if_neg (by decide)]
  rw [hdec]
  unfold applyAct
  rw [row_get_set_self, hval]

/-! ## Claims -/

/-- Claim C2: the approach code derived inside the mandatory-presence
rule and the one derived inside the cross-field market_approach_value
rule agree on every raw cell value (empty maps to 0, otherwise the
float parse is integer-truncated, and a failed parse gives the
exempting `none` in both places); concrete instances illustrate each
branch of the common derivation. -/
theorem claim_C2 :
    (∀ v : Value, approachMandatory v = approachCross v) ∧
    approachMandatory Value.vnan = some 0 ∧
    approachMandatory (Value.vstr "") = some 0 ∧
    approachMandatory (Value.vstr "2.9") = some 2 ∧
    approachMandatory (Value.vstr "abc") = none := by
  refine ⟨fun _ => rfl, ?_, ?_, ?_, ?_⟩ <;> decide

/-- Claim C5: `is_empty` holds exactly on `None`, NaN and strings that
strip to nothing; in particular `"0"` and every case variant of
`"N/A"` are not empty, and no other non-blank string is empty. -/
theorem claim_C5 :
    (∀ s : String, is_empty (Value.vstr s) = decide (pyStrip s = "")) ∧
    is_empty Value.vnone = true ∧
    is_empty Value.vnan = true ∧
    is_empty (Value.vstr "0") = false ∧
    is_empty (Value.vstr "N/A") = false ∧
    is_empty (Value.vstr "n/a") = false ∧
    is_empty (Value.vstr "N/a") = false ∧
    is_empty (Value.vstr "  ") = true ∧
    is_empty (Value.vstr "") = true := by
  refine ⟨is_empty_str, rfl, rfl, ?_, ?_, ?_, ?_, ?_, ?_⟩ <;> decide

/-- Claim C6: `to_int` fails on every empty value; on non-empty values
it strips, drops a trailing ".0", rejects a remaining decimal point or
non-numeric content, and otherwise returns the parsed integer — with
the claim's concrete instances. -/
theorem claim_C6 :
    (∀ v : Value, is_empty v = true → to_int v = (false, none)) ∧
    to_int (Value.vstr "97000") = (true, some 97000) ∧
    to_int (Value.vstr "97000.5") = (false, none) ∧
    to_int (Value.vstr "97000.0") = (true, some 97000) ∧
    to_int (Value.vstr "12.00") = (false, none) ∧
    to_int (Value.vstr "abc") = (false, none) ∧
    to_int (Value.vstr " 97000.0 ") = (true, some 97000) := by
  refine ⟨?_, by decide, by decide, by decide, by decide, by decide, by decide⟩
  intro v h
  unfold to_int to_intE
  rw [if_pos h]

/-- Witness for claim C6 at the concrete empty value NaN. -/
theorem claim_C6_witness :
    is_empty Value.vnan = true ∧ to_int Value.vnan = (false, none) :=
  ⟨rfl, claim_C6.1 Value.vnan rfl⟩

/-- Claim C7: the three coercion functions are total and never let an
error escape: on every input the `Except`-level model returns `ok`
(the `try` bodies can raise, but every raise is absorbed by the
transcribed handler), so each function yields an (ok, value) pair. -/
theorem claim_C7 : ∀ v : Value,
    (∃ r, to_intE v = Except.ok r) ∧
    (∃ r, to_floatE v = Except.ok r) ∧
    (∃ r, parse_and_format_dateE v = Except.ok r) := by
  intro v
  refine ⟨?_, ?_, ?_⟩
  · unfold to_intE
    dsimp only
    repeat' split
    all_goals exact ⟨_, rfl⟩
  · unfold to_floatE
    repeat' split
    all_goals exact ⟨_, rfl⟩
  · unfold parse_and_format_dateE
    repeat' split
    all_goals exact ⟨_, rfl⟩

/-- Claim C1 (counterexample): on a table with all expected columns and
an empty final_value cell, the `all` profile leaves the cell holding
"This mandatory field is empty | Final value must be a non-decimal
integer" — not the claimed concatenation ending in "final_value is
mandatory and cannot be empty", because the final-value group sees the
cell already rewritten to the mandatory message and flags it as a
non-integer rather than as empty. -/
theorem claim_C1_counterexample :
    is_empty (getCell emptyFinalW 0 "final_value") = true ∧
    getCell (validate_all emptyFinalW).1 0 "final_value" =
      Value.vstr "This mandatory field is empty | Final value must be a non-decimal integer" ∧
    getCell (validate_all emptyFinalW).1 0 "final_value" ≠
      Value.vstr "This mandatory field is empty | final_value is mandatory and cannot be empty" := by
  refine ⟨rfl, by decide, by decide⟩

/-- Claim C1 (amended): on every table with the expected columns, a row
whose final_value cell is empty ends the `all` profile annotated with
the mandatory-presence message followed by "Final value must be a
non-decimal integer", joined by " | " (the final-value group runs after
the mandatory message was written into the cell, so it reports the
non-integer message, not its emptiness message). -/
theorem claim_C1_amended (t : Table) (idx : Nat)
    (hcols : ∀ c ∈ EXPECTED_COLUMNS, c ∈ t.cols)
    (hidx : idx < t.rows.length)
    (hempty : is_empty (getCell t idx "final_value") = true) :
    getCell (validate_all t).1 idx "final_value" =
      Value.vstr (append_message (getCell t idx "final_value") "This mandatory field is empty"
        ++ " | Final value must be a non-decimal integer") := by
  have hfv : "final_value" ∈ t.cols := hcols _ (by decide)
  have h1 := mand_final_cell t idx hidx hfv hempty
  have h1' : Row.get ((validate_mandatory_only t).1.rows.getD idx []) "final_value" =
      Value.vstr (append_message (getCell t idx "final_value") "This mandatory field is empty") := h1
  show getCell (validate_all_extra (validate_dates_only (validate_final_value_only
    (validate_mandatory_only t).1).1).1).1 idx "final_value" = _
  rw [extra_cell_ne _ _ _ (by decide) (by decide) (by decide) (by decide) (by decide)]
  rw [dates_cell_ne _ _ _ (by decide)]
  have hcol1 : "final_value" ∈ (validate_mandatory_only t).1.cols := by
    rw [cols_mandatory]
    exact hfv
  have hidx1 : idx < (validate_mandatory_only t).1.rows.length := by
    rw [rows_len_mandatory]
    exact hidx
  rw [final_cell _ idx hidx1 hcol1]
  rcases append_m1_of_empty (getCell t idx "final_value") hempty with hw | hw
  · rw [hw] at h1' ⊢
    have hdec : finalDecide ((validate_mandatory_only t).1.rows.getD idx []) =
        Act.flag "Final value must be a non-decimal integer" := by
      unfold finalDecide
      dsimp only
      rw [h1']
      rw [if_neg (by decide), if_neg (by decide)]
    rw [hdec]
    unfold applyAct
    rw [row_get_set_self, h1']
    decide
  · rw [hw] at h1' ⊢
    have hdec : finalDecide ((validate_mandatory_only t).1.rows.getD idx []) =
        Act.flag "Final value must be a non-decimal integer" := by
      unfold finalDecide
      dsimp only
      rw [h1']
      rw [if_neg (by decide), if_neg (by decide)]
    rw [hdec]
    unfold applyAct
    rw [row_get_set_self, h1']
    decide

/-- Witness for the amended claim C1 at the concrete one-row table with
a NaN final_value cell. -/
theorem claim_C1_witness :
    getCell (validate_all emptyFinalW).1 0 "final_value" =
      Value.vstr (append_message (getCell emptyFinalW 0 "final_value") "This mandatory field is empty"
        ++ " | Final value must be a non-decimal integer") :=
  claim_C1_amended emptyFinalW 0 (by decide) (by decide) rfl

/-- Claim C3 (counterexample): on a rowless table with all expected
columns the `all` profile returns four summary lines, not one per rule
group (which would be eight); and the `dates_only` profile can return
two lines for its single rule group when cells were auto-formatted. -/
theorem claim_C3_counterexample :
    (validate_all emptyRowsW).2.2 =
      ["Missing mandatory values: 0", "Final Value issues: 0", "Invalid dates: 0",
       "Additional rule violations: 0"] ∧
    ((validate_all emptyRowsW).2.2).length ≠ 8 ∧
    (validate_dates_only validW).2.2 = ["Invalid dates: 0", "Dates auto-formatted: 1"] := by
  refine ⟨by decide, by decide, by decide⟩

/-- Claim C3 (amended): each of the mandatory, final-value and date
groups contributes exactly one "<Label>: <count>" line, in execution
order; the five additional checks of the `all` profile are reported as
the single combined line "Additional rule violations: <count>"; and the
date group appends one extra "Dates auto-formatted: <k>" line exactly
when k > 0 cells were silently reformatted. -/
theorem claim_C3_amended (t : Table) (hdate : "inspection_date" ∈ t.cols) :
    (∃ a, (validate_mandatory_only t).2.2 = ["Missing mandatory values: " ++ natStr a]) ∧
    (∃ b, (validate_final_value_only t).2.2 = ["Final Value issues: " ++ natStr b]) ∧
    (∃ c k, (validate_dates_only t).2.2 =
      ["Invalid dates: " ++ natStr c] ++
        (if k = 0 then [] else ["Dates auto-formatted: " ++ natStr k])) ∧
    (∃ a b c k e, (validate_all t).2.2 =
      ["Missing mandatory values: " ++ natStr a, "Final Value issues: " ++ natStr b,
       "Invalid dates: " ++ natStr c] ++
        (if k = 0 then [] else ["Dates auto-formatted: " ++ natStr k]) ++
        ["Additional rule violations: " ++ natStr e]) := by
  have hfin : ∀ u : Table, ∃ b, (validate_final_value_only u).2.2 =
      ["Final Value issues: " ++ natStr b] := by
    intro u
    unfold validate_final_value_only
    split
    · exact ⟨_, rfl⟩
    · exact ⟨0, rfl⟩
  have hdat : ∀ u : Table, "inspection_date" ∈ u.cols → ∃ c k, (validate_dates_only u).2.2 =
      ["Invalid dates: " ++ natStr c] ++
        (if k = 0 then [] else ["Dates auto-formatted: " ++ natStr k]) := by
    intro u hu
    unfold validate_dates_only
    rw [if_pos hu]
    exact ⟨_, _, rfl⟩
  refine ⟨⟨_, rfl⟩, hfin t, hdat t hdate, ?_⟩
  obtain ⟨b, hb⟩ := hfin (validate_mandatory_only t).1
  obtain ⟨c, k, hc⟩ := hdat (validate_final_value_only (validate_mandatory_only t).1).1
    (by rw [cols_final, cols_mandatory]; exact hdate)
  refine ⟨(mandLoop t.cols MANDATORY_FIELDS t.rows).2.2, b, c, k,
    (validate_all_extra (validate_dates_only (validate_final_value_only
      (validate_mandatory_only t).1).1).1).2.2, ?_⟩
  show (validate_mandatory_only t).2.2 ++
      (validate_final_value_only (validate_mandatory_only t).1).2.2 ++
      (validate_dates_only (validate_final_value_only (validate_mandatory_only t).1).1).2.2 ++
      ["Additional rule violations: " ++ natStr (validate_all_extra (validate_dates_only
        (validate_final_value_only (validate_mandatory_only t).1).1).1).2.2] = _
  rw [hb, hc]
  show ["Missing mandatory values: " ++ natStr (mandLoop t.cols MANDATORY_FIELDS t.rows).2.2] ++ _ = _
  simp [List.append_assoc]

/-- Witness for the amended claim C3 at the concrete valid one-row
table (whose date cell is auto-formatted). -/
theorem claim_C3_witness :
    (∃ a, (validate_mandatory_only validW).2.2 = ["Missing mandatory values: " ++ natStr a]) ∧
    (∃ b, (validate_final_value_only validW).2.2 = ["Final Value issues: " ++ natStr b]) ∧
    (∃ c k, (validate_dates_only validW).2.2 =
      ["Invalid dates: " ++ natStr c] ++
        (if k = 0 then [] else ["Dates auto-formatted: " ++ natStr k])) ∧
    (∃ a b c k e, (validate_all validW).2.2 =
      ["Missing mandatory values: " ++ natStr a, "Final Value issues: " ++ natStr b,
       "Invalid dates: " ++ natStr c] ++
        (if k = 0 then [] else ["Dates auto-formatted: " ++ natStr k]) ++
        ["Additional rule violations: " ++ natStr e]) :=
  claim_C3_amended validW (by decide)

/-- Claim C4 (counterexample): `final_value_only` on a table without
final_value emits only its count line — no missing-column line — while
the `all` profile on a table without inspection_date does emit the
missing-column line (the claim asserts the opposite of both). -/
theorem claim_C4_counterexample :
    "final_value" ∉ noFinalW.cols ∧
    (validate_final_value_only noFinalW).2.2 = ["Final Value issues: 0"] ∧
    "inspection_date" ∉ noDateW.cols ∧
    missingDateLine ∈ (validate_all noDateW).2.2 := by
  refine ⟨by decide, by decide, by decide, by decide⟩

/-- Claim C4 (amended): a rule group whose target column is absent is
skipped but still emits its count line (counting zero) and no
missing-column line — except the date group, which emits "Column
'inspection_date' is missing" whenever inspection_date is absent, both
when `dates_only` is the requested profile and inside `all`. -/
theorem claim_C4_amended (t : Table) :
    ("final_value" ∉ t.cols →
      validate_final_value_only t = (t, [], ["Final Value issues: " ++ natStr 0])) ∧
    ("inspection_date" ∉ t.cols →
      (validate_dates_only t).2.2 = [missingDateLine, "Invalid dates: " ++ natStr 0]) ∧
    ("inspection_date" ∉ t.cols → missingDateLine ∈ (validate_all t).2.2) := by
  refine ⟨?_, ?_, ?_⟩
  · intro h
    unfold validate_final_value_only
    rw [if_neg h]
  · intro h
    unfold validate_dates_only
    rw [if_neg h]
  · intro h
    have hd2 : "inspection_date" ∉ (validate_final_value_only (validate_mandatory_only t).1).1.cols := by
      rw [cols_final, cols_mandatory]
      exact h
    have hsum : (validate_dates_only (validate_final_value_only (validate_mandatory_only t).1).1).2.2 =
        [missingDateLine, "Invalid dates: " ++ natStr 0] := by
      unfold validate_dates_only
      rw [if_neg hd2]
    show missingDateLine ∈ (validate_mandatory_only t).2.2 ++
      (validate_final_value_only (validate_mandatory_only t).1).2.2 ++
      (validate_dates_only (validate_final_value_only (validate_mandatory_only t).1).1).2.2 ++
      ["Additional rule violations: " ++ natStr (validate_all_extra (validate_dates_only
        (validate_final_value_only (validate_mandatory_only t).1).1).1).2.2]
    refine List.mem_append.mpr (Or.inl ?_)
    refine List.mem_append.mpr (Or.inr ?_)
    rw [hsum]
    exact List.mem_cons_self _ _

/-- Witness for the amended claim C4 at the concrete columnless table. -/
theorem claim_C4_witness :
    validate_final_value_only ⟨[], []⟩ = (⟨[], []⟩, [], ["Final Value issues: " ++ natStr 0]) ∧
    (validate_dates_only ⟨[], []⟩).2.2 = [missingDateLine, "Invalid dates: " ++ natStr 0] ∧
    missingDateLine ∈ (validate_all ⟨[], []⟩).2.2 :=
  ⟨(claim_C4_amended ⟨[], []⟩).1 (by decide),
   (claim_C4_amended ⟨[], []⟩).2.1 (by decide),
   (claim_C4_amended ⟨[], []⟩).2.2 (by decide)⟩

lemma pafd_ok_props (v : Value) (s : String)
    (h : parse_and_format_date v = (true, some s)) :
    is_empty v = false ∧ s ≠ "" ∧
    parse_and_format_date (Value.vstr s) = (true, some s) := by
  refine ⟨?_, ?_, pafd_roundtrip v s h⟩
  · unfold parse_and_format_date parse_and_format_dateE at h
    by_cases he : is_empty v = true
    · rw [if_pos he] at h
      dsimp only at h
      exact absurd (congrArg Prod.fst h) (by simp)
    · exact Bool.not_eq_true _ |>.mp he
  · unfold parse_and_format_date parse_and_format_dateE at h
    by_cases he : is_empty v = true
    · rw [if_pos he] at h
      dsimp only at h
      exact absurd (congrArg Prod.fst h) (by simp)
    · rw [if_neg he] at h
      cases hp : pdToDatetimeE (pyStrip (pyStr v)) with
      | ok d =>
        rw [hp] at h
        dsimp only at h
        have hs : strftimeDMY d = s := by simpa using h
        rw [← hs]
        exact strftime_ne_empty d
      | error e =>
        rw [hp] at h
        dsimp only at h
        exact absurd (congrArg Prod.fst h) (by simp)

lemma dateDecide_fix (r : Row) (s : String)
    (h : parse_and_format_date (Row.get r "inspection_date") = (true, some s)) :
    dateDecide r = Act.fix (Value.vstr s) := by
  obtain ⟨hne, hs, _⟩ := pafd_ok_props _ _ h
  unfold dateDecide
  dsimp only
  rw [if_neg (by rw [hne]; exact Bool.false_ne_true)]
  rw [h]
  dsimp only
  rw [if_neg hs]

/-- Claim C9: a date cell the `dates_only` profile reformats is stable:
the reformatted dd-mm-YYYY string re-parses to itself, so a second run
of the profile on the first run's output leaves the cell unchanged. -/
theorem claim_C9 (t : Table) (idx : Nat) (s : String)
    (hcol : "inspection_date" ∈ t.cols)
    (hidx : idx < t.rows.length)
    (hparse : parse_and_format_date (getCell t idx "inspection_date") = (true, some s)) :
    getCell (validate_dates_only t).1 idx "inspection_date" = Value.vstr s ∧
    parse_and_format_date (Value.vstr s) = (true, some s) ∧
    getCell (validate_dates_only (validate_dates_only t).1).1 idx "inspection_date" = Value.vstr s := by
  have hprops := pafd_ok_props _ _ hparse
  have hd1 : dateDecide (t.rows.getD idx []) = Act.fix (Value.vstr s) :=
    dateDecide_fix _ _ hparse
  have hcell1 : getCell (validate_dates_only t).1 idx "inspection_date" = Value.vstr s := by
    rw [dates_cell t idx hidx hcol, hd1]
    unfold applyAct
    exact row_get_set_self _ _ _
  refine ⟨hcell1, hprops.2.2, ?_⟩
  have hcol2 : "inspection_date" ∈ (validate_dates_only t).1.cols := by
    rw [cols_dates]
    exact hcol
  have hidx2 : idx < (validate_dates_only t).1.rows.length := by
    rw [rows_len_dates]
    exact hidx
  rw [dates_cell _ idx hidx2 hcol2]
  have hd2 : dateDecide ((validate_dates_only t).1.rows.getD idx []) = Act.fix (Value.vstr s) := by
    apply dateDecide_fix
    have hv2 : Row.get ((validate_dates_only t).1.rows.getD idx []) "inspection_date" =
        Value.vstr s := hcell1
    rw [hv2]
    exact hprops.2.2
  rw [hd2]
  unfold applyAct
  exact row_get_set_self _ _ _

/-- Witness for claim C9 at the concrete valid one-row table, whose
inspection_date cell "15-03-2024" is already in the target format. -/
theorem claim_C9_witness :
    getCell (validate_dates_only validW).1 0 "inspection_date" = Value.vstr "15-03-2024" ∧
    parse_and_format_date (Value.vstr "15-03-2024") = (true, some "15-03-2024") ∧
    getCell (validate_dates_only (validate_dates_only validW).1).1 0 "inspection_date" =
      Value.vstr "15-03-2024" :=
  claim_C9 validW 0 "15-03-2024" (by decide) (by decide) (by decide)

lemma final_keyframe (t : Table) (idx : Nat) (c : String)
    (hk : (idx, c) ∉ (validate_final_value_only t).2.1) :
    getCell (validate_final_value_only t).1 idx c = getCell t idx c := by
  by_cases hcfv : c = "final_value"
  · subst hcfv
    by_cases hcol : "final_value" ∈ t.cols
    · have hk' : (idx, "final_value") ∉ (colPassRows "final_value" finalDecide t.rows 0).keys := by
        unfold validate_final_value_only at hk
        rw [if_pos hcol] at hk
        exact hk
      unfold validate_final_value_only getCell
      rw [if_pos hcol]
      dsimp only
      exact colPassRows_cell_noflag _ _ finalDecide_noFix t.rows idx hk'
    · unfold validate_final_value_only
      rw [if_neg hcol]
  · exact final_cell_ne t idx c hcfv

lemma mand_keyframe (t : Table) (idx : Nat) (c : String)
    (hk : (idx, c) ∉ (validate_mandatory_only t).2.1) :
    getCell (validate_mandatory_only t).1 idx c = getCell t idx c :=
  mandLoop_cell_keyframe t.cols c MANDATORY_FIELDS t.rows idx hk

lemma stage_cell_keyframe (cond : Prop) [Decidable cond] (cp : String) (d : Row → Act)
    (hnf : NoFix d) (rows : List Row) (idx : Nat) (c : String)
    (hk : (idx, c) ∉ (if cond then colPassRows cp d rows 0 else ⟨rows, [], 0, 0⟩).keys) :
    Row.get (((if cond then colPassRows cp d rows 0 else ⟨rows, [], 0, 0⟩).rows).getD idx []) c =
      Row.get (rows.getD idx []) c := by
  by_cases h : cond
  · rw [if_pos h] at hk ⊢
    by_cases hc : c = cp
    · subst hc
      exact colPassRows_cell_noflag _ _ hnf rows idx hk
    · exact colPassRows_cell_ne _ _ hc _ rows 0 idx
  · rw [if_neg h]

lemma extra_keyframe (t : Table) (idx : Nat) (c : String)
    (hk : (idx, c) ∉ (validate_all_extra t).2.1) :
    getCell (validate_all_extra t).1 idx c = getCell t idx c := by
  unfold validate_all_extra at hk ⊢
  dsimp only at hk ⊢
  simp only [List.mem_append, not_or] at hk
  obtain ⟨⟨⟨⟨h4, h5⟩, h6⟩, h7⟩, h8⟩ := hk
  unfold getCell
  dsimp only
  rw [stage_cell_keyframe _ _ _ productionDecide_noFix _ idx c h8]
  rw [stage_cell_keyframe _ _ _ (mavDecide_noFix t.cols) _ idx c h7]
  rw [stage_cell_keyframe _ _ _ marketDecide_noFix _ idx c h6]
  rw [stage_cell_keyframe _ _ _ valueBaseDecide_noFix _ idx c h5]
  rw [stage_cell_keyframe _ _ _ usageDecide_noFix _ idx c h4]

/-- Claim C10: under every profile, a cell whose (row, column) key is
not in the returned highlight set and whose column is not
inspection_date keeps exactly its input value (flagged cells receive
appended messages, and inspection_date cells may be silently rewritten
by the auto-fix; nothing else changes). -/
theorem claim_C10 (t : Table) (idx : Nat) (c : String)
    (_hcols : ∀ x ∈ EXPECTED_COLUMNS, x ∈ t.cols)
    (hc : c ≠ "inspection_date") :
    ((idx, c) ∉ (validate_final_value_only t).2.1 →
      getCell (validate_final_value_only t).1 idx c = getCell t idx c) ∧
    ((idx, c) ∉ (validate_mandatory_only t).2.1 →
      getCell (validate_mandatory_only t).1 idx c = getCell t idx c) ∧
    ((idx, c) ∉ (validate_dates_only t).2.1 →
      getCell (validate_dates_only t).1 idx c = getCell t idx c) ∧
    ((idx, c) ∉ (validate_all t).2.1 →
      getCell (validate_all t).1 idx c = getCell t idx c) := by
  refine ⟨final_keyframe t idx c, mand_keyframe t idx c,
    fun _ => dates_cell_ne t idx c hc, ?_⟩
  intro hk
  have hk' : (idx, c) ∉ (validate_mandatory_only t).2.1 ++
      (validate_final_value_only (validate_mandatory_only t).1).2.1 ++
      (validate_dates_only (validate_final_value_only (validate_mandatory_only t).1).1).2.1 ++
      (validate_all_extra (validate_dates_only (validate_final_value_only
        (validate_mandatory_only t).1).1).1).2.1 := hk
  simp only [List.mem_append, not_or] at hk'
  obtain ⟨⟨⟨h1, h2⟩, h3⟩, h4⟩ := hk'
  show getCell (validate_all_extra (validate_dates_only (validate_final_value_only
    (validate_mandatory_only t).1).1).1).1 idx c = _
  rw [extra_keyframe _ idx c h4]
  rw [dates_cell_ne _ idx c hc]
  rw [final_keyframe _ idx c h2]
  exact mand_keyframe t idx c h1

/-- Witness for claim C10: the macroid cell of the valid one-row table
is untouched by the `all` profile (its highlight set is empty). -/
theorem claim_C10_witness :
    getCell (validate_all validW).1 0 "macroid" = getCell validW 0 "macroid" :=
  (claim_C10 validW 0 "macroid" (by decide) (by decide)).2.2.2 (by decide)

/-! ## Lemmas: the heap model -/

lemma list_set_append_len {α : Type} (l : List α) (x y : α) :
    (l ++ [x]).set l.length y = l ++ [y] := by
  simp [List.set_append]

lemma list_getD_append_len {α : Type} (l : List α) (x : α) (d : α) :
    (l ++ [x]).getD l.length d = x := by
  simp [List.getD]

lemma runOnCopy_spec (f : Table → Table × List (Nat × String) × List String)
    (h : Heap) (r : Nat) (_hr : r < h.tables.length) :
    (runOnCopy f h r).2.1 = h.tables.length ∧
    (runOnCopy f h r).1.tables.length = h.tables.length + 1 ∧
    (∀ r0, r0 < h.tables.length → (runOnCopy f h r).1.get r0 = h.get r0) ∧
    (runOnCopy f h r).1.get (runOnCopy f h r).2.1 = (f (h.get r)).1 := by
  unfold runOnCopy Heap.alloc Heap.set Heap.get
  dsimp only
  rw [list_getD_append_len]
  rw [list_set_append_len]
  refine ⟨rfl, by simp, ?_, ?_⟩
  · intro r0 hr0
    exact List.getD_append _ _ _ _ (by simpa using hr0)
  · exact list_getD_append_len _ _ _

lemma runOnCopy_frame (f : Table → Table × List (Nat × String) × List String)
    (h : Heap) (r : Nat) (hr : r < h.tables.length) :
    (runOnCopy f h r).1.get r = h.get r ∧
    (runOnCopy f h r).2.1 ≠ r ∧
    (runOnCopy f h r).1.get (runOnCopy f h r).2.1 = (f (h.get r)).1 := by
  obtain ⟨e1, e2, e3, e4⟩ := runOnCopy_spec f h r hr
  exact ⟨e3 r hr, by rw [e1]; omega, e4⟩

lemma heap_get_set_self (h : Heap) (i : Nat) (t : Table) (hi : i < h.tables.length) :
    (h.set i t).get i = t := by
  unfold Heap.set Heap.get
  dsimp only
  simp [List.getD, List.getElem?_set_self, hi]

lemma heap_get_set_ne (h : Heap) (i j : Nat) (t : Table) (hne : i ≠ j) :
    (h.set i t).get j = h.get j := by
  unfold Heap.set Heap.get
  dsimp only
  simp [List.getD, List.getElem?_set_ne hne]

lemma all_H_spec (h : Heap) (r : Nat) (hr : r < h.tables.length) :
    (validate_all_H h r).1.get r = h.get r ∧
    (validate_all_H h r).2.1 ≠ r ∧
    (validate_all_H h r).1.get (validate_all_H h r).2.1 = (validate_all (h.get r)).1 := by
  unfold validate_all_H validate_mandatory_only_H validate_final_value_only_H validate_dates_only_H
  dsimp only
  set A := h.alloc (h.get r) with hA
  set M := runOnCopy validate_mandatory_only A.1 A.2 with hM
  set F := runOnCopy validate_final_value_only M.1 M.2.1 with hF
  set D := runOnCopy validate_dates_only F.1 F.2.1 with hD
  have hA1 : A.1.tables.length = h.tables.length + 1 := by
    rw [hA]
    unfold Heap.alloc
    simp
  have hA2 : A.2 = h.tables.length := by rw [hA]; rfl
  have hAold : ∀ r0, r0 < h.tables.length → A.1.get r0 = h.get r0 := by
    intro r0 hr0
    rw [hA]
    unfold Heap.alloc Heap.get
    dsimp only
    exact List.getD_append _ _ _ _ (by simpa using hr0)
  have hAnew : A.1.get A.2 = h.get r := by
    rw [hA]
    unfold Heap.alloc Heap.get
    dsimp only
    exact list_getD_append_len _ _ _
  obtain ⟨hM1, hM2, hM3, hM4⟩ :=
    runOnCopy_spec validate_mandatory_only A.1 A.2 (by rw [hA1, hA2]; omega)
  rw [← hM] at hM1 hM2 hM3 hM4
  obtain ⟨hF1, hF2, hF3, hF4⟩ :=
    runOnCopy_spec validate_final_value_only M.1 M.2.1 (by rw [hM1]; omega)
  rw [← hF] at hF1 hF2 hF3 hF4
  obtain ⟨hD1, hD2, hD3, hD4⟩ :=
    runOnCopy_spec validate_dates_only F.1 F.2.1 (by rw [hF1]; omega)
  rw [← hD] at hD1 hD2 hD3 hD4
  have hDref : D.2.1 = h.tables.length + 3 := by
    rw [hD1, hF2, hM2, hA1]
  refine ⟨?_, by omega, ?_⟩
  · rw [heap_get_set_ne _ _ _ _ (by omega)]
    rw [hD3 r (by rw [hF2, hM2, hA1]; omega)]
    rw [hF3 r (by rw [hM2, hA1]; omega)]
    rw [hM3 r (by rw [hA1]; omega)]
    exact hAold r hr
  · rw [heap_get_set_self _ _ _ (by rw [hD2, hF2, hM2, hA1]; omega)]
    rw [hD4, hF4, hM4, hAnew]
    rfl

/-- Claim C8: every profile first copies the table (`df.copy()`) and
mutates only the copy: in the heap model, running any profile on a
reference leaves the referenced input table unchanged, returns a fresh
reference, and the fresh reference holds exactly the pure validator's
annotated table. -/
theorem claim_C8 (h : Heap) (r : Nat) (hr : r < h.tables.length) :
    ((validate_final_value_only_H h r).1.get r = h.get r ∧
     (validate_final_value_only_H h r).2.1 ≠ r ∧
     (validate_final_value_only_H h r).1.get (validate_final_value_only_H h r).2.1 =
       (validate_final_value_only (h.get r)).1) ∧
    ((validate_mandatory_only_H h r).1.get r = h.get r ∧
     (validate_mandatory_only_H h r).2.1 ≠ r ∧
     (validate_mandatory_only_H h r).1.get (validate_mandatory_only_H h r).2.1 =
       (validate_mandatory_only (h.get r)).1) ∧
    ((validate_dates_only_H h r).1.get r = h.get r ∧
     (validate_dates_only_H h r).2.1 ≠ r ∧
     (validate_dates_only_H h r).1.get (validate_dates_only_H h r).2.1 =
       (validate_dates_only (h.get r)).1) ∧
    ((validate_all_H h r).1.get r = h.get r ∧
     (validate_all_H h r).2.1 ≠ r ∧
     (validate_all_H h r).1.get (validate_all_H h r).2.1 = (validate_all (h.get r)).1) :=
  ⟨runOnCopy_frame validate_final_value_only h r hr,
   runOnCopy_frame validate_mandatory_only h r hr,
   runOnCopy_frame validate_dates_only h r hr,
   all_H_spec h r hr⟩

/-- Witness for claim C8 at a one-table heap holding the valid one-row
table. -/
theorem claim_C8_witness :
    ((validate_final_value_only_H ⟨[validW]⟩ 0).1.get 0 = Heap.get ⟨[validW]⟩ 0 ∧
     (validate_final_value_only_H ⟨[validW]⟩ 0).2.1 ≠ 0 ∧
     (validate_final_value_only_H ⟨[validW]⟩ 0).1.get (validate_final_value_only_H ⟨[validW]⟩ 0).2.1 =
       (validate_final_value_only (Heap.get ⟨[validW]⟩ 0)).1) ∧
    ((validate_mandatory_only_H ⟨[validW]⟩ 0).1.get 0 = Heap.get ⟨[validW]⟩ 0 ∧
     (validate_mandatory_only_H ⟨[validW]⟩ 0).2.1 ≠ 0 ∧
     (validate_mandatory_only_H ⟨[validW]⟩ 0).1.get (validate_mandatory_only_H ⟨[validW]⟩ 0).2.1 =
       (validate_mandatory_only (Heap.get ⟨[validW]⟩ 0)).1) ∧
    ((validate_dates_only_H ⟨[validW]⟩ 0).1.get 0 = Heap.get ⟨[validW]⟩ 0 ∧
     (validate_dates_only_H ⟨[validW]⟩ 0).2.1 ≠ 0 ∧
     (validate_dates_only_H ⟨[validW]⟩ 0).1.get (validate_dates_only_H ⟨[validW]⟩ 0).2.1 =
       (validate_dates_only (Heap.get ⟨[validW]⟩ 0)).1) ∧
    ((validate_all_H ⟨[validW]⟩ 0).1.get 0 = Heap.get ⟨[validW]⟩ 0 ∧
     (validate_all_H ⟨[validW]⟩ 0).2.1 ≠ 0 ∧
     (validate_all_H ⟨[validW]⟩ 0).1.get (validate_all_H ⟨[validW]⟩ 0).2.1 =
       (validate_all (Heap.get ⟨[validW]⟩ 0)).1) :=
  claim_C8 ⟨[validW]⟩ 0 (by decide)
